import Mathlib

/-!
Verification development for `pyppeteer/execution_context.py`: a shallow
embedding of `ExecutionContext` and `JSHandle` together with proofs about
argument encoding, handle disposal, property enumeration and the RPC
requests each operation issues.

Modelling conventions:
* Python values that can appear as evaluation arguments are the inductive
  `PyVal`: a primitive (`Prim`, which includes the IEEE special values
  `inf`, `-inf`, `NaN`, `-0.0` as distinct constructors, since the source
  compares arguments against `math.inf` / `-math.inf`) or a `JSHandle`.
* A remote-object descriptor (a Python dict on the wire) is the record
  `RemoteObject` with optional fields; `dict.get(k)` is the `Option`
  projection and Python truthiness of `get(k)` is `truthyStr` /
  `truthyBool` (absent and empty-string / `False` are both falsy).
* The RPC session (`self._client`) is modelled as a deterministic
  responder `Client : Request → Except Err Response`; every operation
  additionally returns the list of requests it sent (`Trace`), so
  "no RPC call was issued" is `trace = []`.
* The handle factory (`self._objectHandleFactory`, injected externally)
  is an explicit function argument `Factory`; it receives exactly what the
  source passes it, namely `dict.get` results (hence an `Option`).
* Python object identity of execution contexts (the `objectHandle._context
  != self` test) is modelled by record equality of `ExecutionContext`;
  contexts are created one per remote context id.
* Exceptions are the `Err` inductive; the source raises
  `ElementHandleError` with a distinguishing message string, so the
  spec-level error kinds correspond to the exact message constants below
  (`CrossContextHandle` ↦ `crossContextMsg`, `DisposedHandleUse` ↦
  `disposedMsg` / `protoDisposedMsg`, `PrototypeNotObject` ↦
  `protoPrimitiveMsg`, `EvaluationFailed` ↦ `evaluationFailedMsg`).
-/

/-- Primitive Python values that can cross the wire. The four IEEE
special values are separate constructors because `_convertArgument`
compares arguments with `math.inf` and `-math.inf` (no other value in the
model compares equal to either). -/
inductive Prim where
  | pNone
  | pBool (b : Bool)
  | pInt (n : Int)
  | pStr (s : String)
  | pInf
  | pNegInf
  | pNaN
  | pNegZero
  deriving DecidableEq

/-- A remote object descriptor: the wire payload stored in
`JSHandle._remoteObject` and received in RPC responses. Fields are the
dict keys the source reads; `none` models an absent key. -/
structure RemoteObject where
  type : Option String := none
  subtype : Option String := none
  value : Option Prim := none
  unserializableValue : Option String := none
  objectId : Option String := none
  deriving DecidableEq

/-- Python truthiness of `dict.get(key)` for a string-valued key: absent
(`None`) and the empty string are falsy. -/
def truthyStr : Option String → Bool
  | none => false
  | some s => s ≠ ""

/-- Python truthiness of `dict.get(key)` for a bool-valued key. -/
def truthyBool : Option Bool → Bool
  | none => false
  | some b => b

/-- Execution context state (`ExecutionContext.__init__`): the remote
context id. The RPC client and the handle factory are passed to each
operation explicitly (see module docstring). -/
structure ExecutionContext where
  contextId : Nat
  deriving DecidableEq

/-- Handle state (`JSHandle.__init__`): back reference to the owning
context, the proxied descriptor, and the monotonic `_disposed` flag
(initially `false`). The `_client` field of the source is the shared RPC
session, modelled as the explicit `client` argument of each operation. -/
structure JSHandle where
  context : ExecutionContext
  remoteObject : RemoteObject
  disposed : Bool
  deriving DecidableEq

/-- An argument passed to `evaluate` / `evaluateHandle`: a primitive or a
handle. -/
inductive PyVal where
  | prim (p : Prim)
  | handle (h : JSHandle)
  deriving DecidableEq

/-- A wire-level encoded argument, i.e. the dict `_convertArgument`
returns: exactly one of the three keys is present. -/
inductive WireArg where
  | unserializableValue (s : String)
  | value (v : Prim)
  | objectId (s : String)
  deriving DecidableEq

/-- A parameter value inside an RPC request's parameter dict. -/
inductive PValue where
  | pstr (s : String)
  | pnat (n : Nat)
  | pbool (b : Bool)
  | pargs (l : List WireArg)
  deriving DecidableEq

/-- One RPC request: method name plus parameter dict (as key/value list,
in the order the source writes the literal). -/
structure Request where
  method : String
  params : List (String × PValue)
  deriving DecidableEq

/-- One entry of the `result` list of a get-properties response:
`{name, enumerable, value}` (all read with `dict.get` by the source). -/
structure PropDesc where
  name : Option String := none
  enumerable : Option Bool := none
  value : Option RemoteObject := none
  deriving DecidableEq

/-- An RPC response, as the union of the fields the source reads.
`exceptionDetails` is `some msg` when the response carries (truthy)
exception details whose extracted message is `msg`; `result` is the
result descriptor of a call-function-on response; `propList` is the
`result` list of a get-properties response; `objects` is the descriptor
of a query-objects response. -/
structure Response where
  exceptionDetails : Option String := none
  result : Option RemoteObject := none
  propList : Option (List PropDesc) := none
  objects : Option RemoteObject := none
  deriving DecidableEq

/-- Exceptions: `ElementHandleError msg` models
`pyppeteer.errors.ElementHandleError(msg)`; `keyError k` models a Python
`KeyError` on a missing dict key; transport errors come from the RPC
client, with `transportAlreadyGone` the kind that signals the remote
object was already released. -/
inductive Err where
  | elementHandleError (msg : String)
  | keyError (k : String)
  | transportAlreadyGone (msg : String)
  | transport (msg : String)
  deriving DecidableEq

deriving instance DecidableEq for Except

/-- The RPC session: a deterministic responder. -/
abbrev Client := Request → Except Err Response

/-- The injected handle factory (`self._objectHandleFactory`). -/
abbrev Factory := Option RemoteObject → JSHandle

/-- The list of RPC requests an operation sent, in order. -/
abbrev Trace := List Request

/-- Message of the cross-context error raised by `_convertArgument`. -/
def crossContextMsg : String :=
  "JSHandles can be evaluated only in the context they were created!"

/-- Message of the disposed-handle error raised by `_convertArgument`. -/
def disposedMsg : String := "JSHandle is disposed!"

/-- Message of the disposed-prototype error raised by `queryObject`. -/
def protoDisposedMsg : String := "Prototype JSHandle is disposed!"

/-- Message of the primitive-prototype error raised by `queryObject`. -/
def protoPrimitiveMsg : String :=
  "Prototype JSHandle must not be referencing primitive value"

/-- Modelled from the spec: `pyppeteer.helper.getExceptionMessage` is part
of this repository but not under `src/`. The spec (§4.4, §6) only requires
that the exception-detail payload be converted to a human-readable
message by this external helper; we model the payload as already being
that message. -/
def getExceptionMessage (details : String) : String := details

/-- Message of the `EvaluationFailed` error raised by `evaluateHandle`. -/
def evaluationFailedMsg (details : String) : String :=
  "Evaluation failed: " ++ getExceptionMessage details

/-- Modelled from the spec: `pyppeteer.helper.valueFromRemoteObject` is
part of this repository but not under `src/`. Per the spec (§4.2
`jsonValue`): sentinel strings map back to the corresponding special
numeric value; absence of both `value` and `unserializableValue` maps to
the "no value" result (`None`); an unrecognised sentinel is a failure. -/
def valueFromRemoteObject (ro : RemoteObject) : Except Err Prim :=
  match ro.unserializableValue with
  | some s =>
    if s = "Infinity" then .ok .pInf
    else if s = "-Infinity" then .ok .pNegInf
    else if s = "NaN" then .ok .pNaN
    else if s = "-0" then .ok .pNegZero
    else .error (.elementHandleError ("Unserializable value: " ++ s))
  | none => .ok (ro.value.getD .pNone)

/-- Modelled from the spec: `pyppeteer.helper.releaseObject` is part of
this repository but not under `src/`. Per the spec (§4.2 `dispose`, §6,
§7): it asks the RPC client to release the remote object reference via
the release-object method, tolerating (swallowing) failures that indicate
the remote object was already gone and propagating other transport
failures; a descriptor with no backing object id has no remote reference
to release, so no request is issued. -/
def releaseObject (client : Client) (remoteObject : RemoteObject) :
    Except Err Unit × Trace :=
  if truthyStr remoteObject.objectId then
    let req : Request :=
      ⟨"Runtime.releaseObject",
        [("objectId", .pstr (remoteObject.objectId.getD ""))]⟩
    match client req with
    | .ok _ => (.ok (), [req])
    | .error (.transportAlreadyGone _) => (.ok (), [req])
    | .error e => (.error e, [req])
  else (.ok (), [])

/-- Python `arg == math.inf`: only the `inf` float compares equal (no
handle or other primitive in the model equals `math.inf`). -/
def eqInf : PyVal → Bool
  | .prim .pInf => true
  | _ => false

/-- Python `arg == -math.inf`. -/
def eqNegInf : PyVal → Bool
  | .prim .pNegInf => true
  | _ => false

/-- Translation of `ExecutionContext._convertArgument` (source lines
67–83): first-match encoding of one argument into a wire argument, or an
`ElementHandleError` for a cross-context or disposed handle argument. -/
def ExecutionContext.convertArgument (self : ExecutionContext)
    (arg : PyVal) : Except Err WireArg :=
  if eqInf arg then .ok (.unserializableValue "Infinity")
  else if eqNegInf arg then .ok (.unserializableValue "-Infinity")
  else
    match arg with
    | .handle objectHandle =>
      if objectHandle.context ≠ self then
        .error (.elementHandleError crossContextMsg)
      else if objectHandle.disposed then
        .error (.elementHandleError disposedMsg)
      else if truthyStr objectHandle.remoteObject.unserializableValue then
        .ok (.unserializableValue
          (objectHandle.remoteObject.unserializableValue.getD ""))
      else if ¬ truthyStr objectHandle.remoteObject.objectId then
        .ok (.value (objectHandle.remoteObject.value.getD .pNone))
      else .ok (.objectId (objectHandle.remoteObject.objectId.getD ""))
    | .prim p => .ok (.value p)

/-- The source's list comprehension
`[self._convertArgument(arg) for arg in args]`: arguments are converted
left to right and the first exception propagates. -/
def ExecutionContext.convertArgs (self : ExecutionContext) :
    List PyVal → Except Err (List WireArg)
  | [] => .ok []
  | a :: rest =>
    match self.convertArgument a with
    | .error e => .error e
    | .ok w =>
      match self.convertArgs rest with
      | .error e => .error e
      | .ok ws => .ok (w :: ws)

/-- The call-function-on request `evaluateHandle` sends (source lines
53–59). -/
def callFunctionOnContextReq (pageFunction : String) (contextId : Nat)
    (wargs : List WireArg) : Request :=
  ⟨"Runtime.callFunctionOn",
    [("functionDeclaration", .pstr pageFunction),
     ("executionContextId", .pnat contextId),
     ("arguments", .pargs wargs),
     ("returnByValue", .pbool false),
     ("awaitPromiss", .pbool true)]⟩

/-- Translation of `ExecutionContext.evaluateHandle` (source lines
33–65; the commented-out zero-argument `Runtime.evaluate` branch is dead
code and every call goes through `Runtime.callFunctionOn`): encode the
arguments, send one call-function-on request, fail with
`EvaluationFailed` when the response carries exception details, otherwise
wrap the result descriptor through the factory. -/
def ExecutionContext.evaluateHandle (self : ExecutionContext)
    (client : Client) (factory : Factory) (pageFunction : String)
    (args : List PyVal) : Except Err JSHandle × Trace :=
  match self.convertArgs args with
  | .error e => (.error e, [])
  | .ok wargs =>
    let req := callFunctionOnContextReq pageFunction self.contextId wargs
    match client req with
    | .error e => (.error e, [req])
    | .ok resp =>
      match resp.exceptionDetails with
      | some details =>
        (.error (.elementHandleError (evaluationFailedMsg details)), [req])
      | none => (.ok (factory resp.result), [req])

/-- Translation of `ExecutionContext.queryObject` (source lines 85–95):
reject a disposed or primitive prototype handle before any RPC, otherwise
send one query-objects request and wrap the `objects` descriptor. -/
def ExecutionContext.queryObject (self : ExecutionContext)
    (client : Client) (factory : Factory) (prototypeHandle : JSHandle) :
    Except Err JSHandle × Trace :=
  if prototypeHandle.disposed then
    (.error (.elementHandleError protoDisposedMsg), [])
  else if ¬ truthyStr prototypeHandle.remoteObject.objectId then
    (.error (.elementHandleError protoPrimitiveMsg), [])
  else
    let req : Request :=
      ⟨"Runtime.queryObject",
        [("prototypeObjectId",
          .pstr (prototypeHandle.remoteObject.objectId.getD ""))]⟩
    match client req with
    | .error e => (.error e, [req])
    | .ok resp => (.ok (factory resp.objects), [req])

/-- The mapping `getProperties` builds: a Python dict from property name
(`prop.get('name')`, hence possibly `None`) to handle, as an insertion-
ordered association list with unique keys. -/
abbrev PropsMap := List (Option String × JSHandle)

/-- Python dict assignment `d[k] = v`: replace in place if the key is
present, else append at the end. -/
def dictInsert (k : Option String) (v : JSHandle) : PropsMap → PropsMap
  | [] => [(k, v)]
  | (k', v') :: rest =>
    if k' = k then (k', v) :: rest else (k', v') :: dictInsert k v rest

/-- Python dict lookup `d[k]` as an `Option` (a `KeyError` at the call
site when `none`). -/
def dictFind (k : Option String) : PropsMap → Option JSHandle
  | [] => none
  | (k', v') :: rest => if k' = k then some v' else dictFind k rest

/-- The get-properties request `getProperties` sends (source lines
128–131); the source reads the object id with `get('objectId', '')`, so
an absent id is sent as the empty string. -/
def getPropertiesReq (objectId : String) : Request :=
  ⟨"Runtime.getProperties",
    [("objectId", .pstr objectId), ("ownProperties", .pbool true)]⟩

/-- The loop of `getProperties` (source lines 132–138) with its running
dict made explicit: skip properties whose `enumerable` field is not
truthy, wrap every other property's `value` descriptor through the
owning context's factory and assign it under the property's name. -/
def buildPropsAux (factory : Factory) (result : PropsMap) :
    List PropDesc → PropsMap
  | [] => result
  | prop :: rest =>
    buildPropsAux factory
      (if truthyBool prop.enumerable then
        dictInsert prop.name (factory prop.value) result
      else result) rest

/-- The mapping `getProperties` builds from a response's property list:
the loop above started from the empty dict. -/
def buildProps (factory : Factory) (props : List PropDesc) : PropsMap :=
  buildPropsAux factory [] props

/-- Translation of `JSHandle.getProperties` (source lines 126–138): send
one get-properties request (unconditionally — there is no disposed or
missing-object-id check) and build the filtered mapping from the
response's `result` list (a `KeyError` if that key is absent). -/
def JSHandle.getProperties (self : JSHandle) (client : Client)
    (factory : Factory) : Except Err PropsMap × Trace :=
  let req := getPropertiesReq (self.remoteObject.objectId.getD "")
  match client req with
  | .error e => (.error e, [req])
  | .ok response =>
    match response.propList with
    | none => (.error (.keyError "result"), [req])
    | some props => (.ok (buildProps factory props), [req])

/-- The page-function source text `getProperty` evaluates (source lines
116–120). -/
def getPropertyFnSrc : String :=
  "(object, propertyName) => \x7b\n                const result = \x7b__proto__: null\x7d;\n                result[propertyName] = object[propertyName];\n                return result;\n            \x7d"

/-- The page-function source text `jsonValue` evaluates on the backing
object (source line 145). -/
def jsonValueFnSrc : String := "function() \x7b return this; \x7d"

/-- The call-function-on request `jsonValue` sends when the handle has a
backing object id (source lines 144–149): note `returnByValue: True`. -/
def callFunctionOnObjectReq (objectId : String) : Request :=
  ⟨"Runtime.callFunctionOn",
    [("functionDeclaration", .pstr jsonValueFnSrc),
     ("objectId", .pstr objectId),
     ("returnByValue", .pbool true),
     ("awaitPromiss", .pbool true)]⟩

/-- Translation of `JSHandle.jsonValue` (source lines 140–151): with a
truthy object id, send one call-function-on request with the by-value
flag and convert the response's `result` descriptor; otherwise convert
the handle's own descriptor with no RPC at all. -/
def JSHandle.jsonValue (self : JSHandle) (client : Client) :
    Except Err Prim × Trace :=
  let objectId := self.remoteObject.objectId
  if truthyStr objectId then
    let req := callFunctionOnObjectReq (objectId.getD "")
    match client req with
    | .error e => (.error e, [req])
    | .ok response =>
      match response.result with
      | none => (.error (.keyError "result"), [req])
      | some ro => (valueFromRemoteObject ro, [req])
  else (valueFromRemoteObject self.remoteObject, [])

/-- Translation of `JSHandle.asElement` (source lines 153–155): the base
class always yields nothing. -/
def JSHandle.asElement (_self : JSHandle) : Option Unit := none

/-- Translation of `JSHandle.dispose` (source lines 157–162): a no-op on
an already disposed handle; otherwise the `disposed` flag is set first
and then the release request is issued, so the returned handle is
disposed even when the release call fails. The returned handle is the
mutated `self`. -/
def JSHandle.dispose (self : JSHandle) (client : Client) :
    (Except Err Unit × Trace) × JSHandle :=
  if self.disposed then ((.ok (), []), self)
  else
    let self' := { self with disposed := true }
    ((releaseObject client self.remoteObject), self')

/-- Translation of `JSHandle.toString` (source lines 164–171). -/
def JSHandle.toString (self : JSHandle) : Except Err String :=
  if truthyStr self.remoteObject.objectId then
    let t := match self.remoteObject.subtype with
      | some s => if s ≠ "" then s else self.remoteObject.type.getD ""
      | none => self.remoteObject.type.getD ""
    .ok ("JSHandle@" ++ t)
  else
    match valueFromRemoteObject self.remoteObject with
    | .error e => .error e
    | .ok v =>
      let rendered := match v with
        | .pNone => "None"
        | .pBool b => if b then "True" else "False"
        | .pInt n => ToString.toString n
        | .pStr s => s
        | .pInf => "inf"
        | .pNegInf => "-inf"
        | .pNaN => "nan"
        | .pNegZero => "-0.0"
      .ok ("JSHandle: " ++ rendered)

/-- Translation of `JSHandle.getProperty` (source lines 113–124):
evaluate a carrier-building page function with the handle itself and the
property name as arguments, read the carrier's properties, extract the
requested entry (a `KeyError` if missing), dispose the carrier handle
and return the entry. -/
def JSHandle.getProperty (self : JSHandle) (client : Client)
    (factory : Factory) (propertyName : String) :
    Except Err JSHandle × Trace :=
  match self.context.evaluateHandle client factory getPropertyFnSrc
      [.handle self, .prim (.pStr propertyName)] with
  | (.error e, t) => (.error e, t)
  | (.ok objectHandle, t) =>
    match objectHandle.getProperties client factory with
    | (.error e, t') => (.error e, t ++ t')
    | (.ok properties, t') =>
      match dictFind (some propertyName) properties with
      | none => (.error (.keyError propertyName), t ++ t')
      | some result =>
        match objectHandle.dispose client with
        | ((.error e, t''), _) => (.error e, t ++ t' ++ t'')
        | ((.ok _, t''), _) => (.ok result, t ++ t' ++ t'')

/-- Translation of `ExecutionContext.evaluate` (source lines 26–31):
`evaluateHandle`, then `jsonValue`, then `dispose`, each step's failure
propagating immediately — in particular a `jsonValue` failure propagates
without the dispose step having run (there is no try/finally in the
source). -/
def ExecutionContext.evaluate (self : ExecutionContext) (client : Client)
    (factory : Factory) (pageFunction : String) (args : List PyVal) :
    Except Err Prim × Trace :=
  match self.evaluateHandle client factory pageFunction args with
  | (.error e, t) => (.error e, t)
  | (.ok handle, t) =>
    match handle.jsonValue client with
    | (.error e, t') => (.error e, t ++ t')
    | (.ok result, t') =>
      match handle.dispose client with
      | ((.error e, t''), _) => (.error e, t ++ t' ++ t'')
      | ((.ok _, t''), _) => (.ok result, t ++ t' ++ t'')

/-- Number of release-object requests in a trace. -/
def countReleases (t : Trace) : Nat :=
  (t.filter (fun r => r.method = "Runtime.releaseObject")).length

/-! Concrete fixtures used by witnesses and counterexamples: two
contexts, a live / disposed / cross-context / primitive handle, a
deterministic factory and a few deterministic RPC responders. -/

/-- A context with remote id 7. -/
def ctxA : ExecutionContext := ⟨7⟩

/-- A second, distinct context (remote id 8). -/
def ctxB : ExecutionContext := ⟨8⟩

/-- A descriptor backed by a live remote object. -/
def roWithId : RemoteObject := { type := some "object", objectId := some "objA" }

/-- A descriptor for a primitive remote value (no object id). -/
def roPrim : RemoteObject := { type := some "number", value := some (.pInt 5) }

/-- A live handle of `ctxA` backed by `roWithId`. -/
def hLive : JSHandle := ⟨ctxA, roWithId, false⟩

/-- An already disposed handle of `ctxA` backed by `roWithId`. -/
def hDisposed : JSHandle := ⟨ctxA, roWithId, true⟩

/-- A live handle owned by the other context `ctxB`. -/
def hCross : JSHandle := ⟨ctxB, roWithId, false⟩

/-- A live handle of `ctxA` with no backing object id. -/
def hPrim : JSHandle := ⟨ctxA, roPrim, false⟩

/-- A deterministic test factory bound to `ctxA` (the spec's design notes
call for substituting deterministic handles in tests). -/
def factoryA : Factory := fun ro => ⟨ctxA, ro.getD {}, false⟩

/-- A responder that answers every request with an empty-field success. -/
def clientOkEmpty : Client := fun _ => .ok {}

/-- The call-function-on request of the `evaluate` scenario below. -/
def evalReqC1 : Request := callFunctionOnContextReq "() => window.foo" 7 []

/-- A responder for which `evaluateHandle` succeeds (returning a
descriptor with object id "objA") and every other request — in
particular the subsequent `jsonValue` call — fails with a transport
error. -/
def clientEvalThenFail : Client := fun req =>
  if req = evalReqC1 then .ok { result := some roWithId }
  else .error (.transport "Protocol error: Connection closed.")

/-- A responder for which the whole `evaluate` pipeline succeeds:
`evaluateHandle` yields the "objA" descriptor, `jsonValue` yields a
primitive result, and the release request succeeds. -/
def clientEvalOk : Client := fun req =>
  if req = evalReqC1 then .ok { result := some roWithId }
  else if req = callFunctionOnObjectReq "objA" then .ok { result := some roPrim }
  else .ok {}

/-- A responder serving a one-property get-properties answer for object
"objA" and a by-value answer for `jsonValue` on "objA". -/
def clientProps : Client := fun req =>
  if req = getPropertiesReq "objA" then
    .ok { propList := some [⟨some "x", some true, some roPrim⟩] }
  else if req = callFunctionOnObjectReq "objA" then
    .ok { result := some roPrim }
  else .error (.transport "unexpected request")

/-- A responder that answers a get-properties request with empty object
id (the request `getProperties` sends for a handle with no `objectId`)
with a non-empty property list. -/
def clientEmptyIdProps : Client := fun req =>
  if req = getPropertiesReq "" then
    .ok { propList := some [⟨some "x", some true, some roWithId⟩] }
  else .error (.transport "unexpected request")

/-- A two-entry property list: one enumerable property, one not. -/
def twoProps : List PropDesc :=
  [⟨some "shown", some true, some roPrim⟩,
   ⟨some "hidden", some false, some roWithId⟩]

/-- A responder serving `twoProps` for object "objA". -/
def clientTwoProps : Client := fun req =>
  if req = getPropertiesReq "objA" then .ok { propList := some twoProps }
  else .error (.transport "unexpected request")

/-! Helper lemmas about argument conversion, the property-map fold and
release traces. -/

/-- A handle owned by another context is rejected by `_convertArgument`
with the cross-context error. -/
theorem convertArgument_cross (ctx : ExecutionContext) (h : JSHandle)
    (hc : h.context ≠ ctx) :
    ctx.convertArgument (.handle h) =
      .error (.elementHandleError crossContextMsg) := by
  simp [ExecutionContext.convertArgument, eqInf, eqNegInf, hc]

/-- A disposed same-context handle is rejected by `_convertArgument`
with the disposed-handle error. -/
theorem convertArgument_disposed (ctx : ExecutionContext) (h : JSHandle)
    (hc : h.context = ctx) (hd : h.disposed = true) :
    ctx.convertArgument (.handle h) =
      .error (.elementHandleError disposedMsg) := by
  simp [ExecutionContext.convertArgument, eqInf, eqNegInf, hc, hd]

/-- If every argument before `a` converts successfully and `a` itself
fails, the whole comprehension fails with `a`'s error. -/
theorem convertArgs_prefix_error (ctx : ExecutionContext)
    (pre post : List PyVal) (a : PyVal) (e : Err)
    (hpre : ∀ v ∈ pre, ∃ w, ctx.convertArgument v = .ok w)
    (ha : ctx.convertArgument a = .error e) :
    ctx.convertArgs (pre ++ a :: post) = .error e := by
  induction pre with
  | nil => simp [ExecutionContext.convertArgs, ha]
  | cons p rest ih =>
    obtain ⟨w, hw⟩ := hpre p (by simp)
    have hrest := ih (fun v hv => hpre v (by simp [hv]))
    simp [ExecutionContext.convertArgs, hw, hrest]

/-- If the comprehension succeeds, every argument converted. -/
theorem convertArgs_ok_mem (ctx : ExecutionContext) :
    ∀ (l : List PyVal) (ws : List WireArg), ctx.convertArgs l = .ok ws →
      ∀ v ∈ l, ∃ w, ctx.convertArgument v = .ok w := by
  intro l
  induction l with
  | nil => intro ws _ v hv; cases hv
  | cons a rest ih =>
    intro ws hws v hv
    rw [ExecutionContext.convertArgs] at hws
    cases ha : ctx.convertArgument a with
    | error e => rw [ha] at hws; cases hws
    | ok w =>
      rw [ha] at hws
      cases hr : ctx.convertArgs rest with
      | error e => rw [hr] at hws; cases hws
      | ok ws' =>
        cases hv with
        | head => exact ⟨w, ha⟩
        | tail _ hv' => exact ih ws' hr v hv'

/-- If the comprehension fails, some argument's conversion produced the
same error. -/
theorem convertArgs_error_mem (ctx : ExecutionContext) :
    ∀ (l : List PyVal) (e : Err), ctx.convertArgs l = .error e →
      ∃ v ∈ l, ctx.convertArgument v = .error e := by
  intro l
  induction l with
  | nil => intro e he; cases he
  | cons a rest ih =>
    intro e he
    rw [ExecutionContext.convertArgs] at he
    cases ha : ctx.convertArgument a with
    | error e' =>
      rw [ha] at he
      cases he
      exact ⟨a, by simp, ha⟩
    | ok w =>
      rw [ha] at he
      cases hr : ctx.convertArgs rest with
      | error e' =>
        rw [hr] at he
        cases he
        obtain ⟨v, hv, hve⟩ := ih e hr
        exact ⟨v, by simp [hv], hve⟩
      | ok ws' => rw [hr] at he; cases he

/-- The only errors `_convertArgument` raises are the cross-context and
the disposed-handle errors. -/
theorem convertArgument_error_cases (ctx : ExecutionContext) (v : PyVal)
    (e : Err) (h : ctx.convertArgument v = .error e) :
    e = .elementHandleError crossContextMsg ∨
      e = .elementHandleError disposedMsg := by
  rcases v with p | hd
  · rcases p <;> simp [ExecutionContext.convertArgument, eqInf, eqNegInf] at h
  · by_cases hc : hd.context = ctx
    · by_cases hdisp : hd.disposed = true
      · have hx := convertArgument_disposed ctx hd hc hdisp
        rw [hx] at h
        cases h
        exact Or.inr rfl
      · simp [ExecutionContext.convertArgument, eqInf, eqNegInf, hc,
          hdisp] at h
        split at h <;> simp_all
        split at h <;> simp_all
    · have hx := convertArgument_cross ctx hd hc
      rw [hx] at h
      cases h
      exact Or.inl rfl

/-- `evaluateHandle` propagates a conversion failure without sending any
request. -/
theorem evaluateHandle_of_convertArgs_error (ctx : ExecutionContext)
    (client : Client) (factory : Factory) (fn : String)
    (args : List PyVal) (e : Err) (h : ctx.convertArgs args = .error e) :
    ctx.evaluateHandle client factory fn args = (.error e, []) := by
  simp [ExecutionContext.evaluateHandle, h]

/-- Every entry of `dictInsert k v m` is `(k, v)` or an entry of `m`. -/
theorem dictInsert_mem (k : Option String) (v : JSHandle) :
    ∀ (m : PropsMap) (k' : Option String) (v' : JSHandle),
      (k', v') ∈ dictInsert k v m → (k' = k ∧ v' = v) ∨ (k', v') ∈ m := by
  intro m
  induction m with
  | nil => intro k' v' hm; simp [dictInsert] at hm; exact Or.inl hm
  | cons a rest ih =>
    intro k' v' hm
    obtain ⟨k0, v0⟩ := a
    by_cases hk : k0 = k
    · rw [dictInsert, if_pos hk, List.mem_cons] at hm
      rcases hm with hm | hm
      · cases hm; exact Or.inl ⟨hk, rfl⟩
      · exact Or.inr (by simp [hm])
    · rw [dictInsert, if_neg hk, List.mem_cons] at hm
      rcases hm with hm | hm
      · cases hm; exact Or.inr (by simp)
      · rcases ih k' v' hm with h1 | h1
        · exact Or.inl h1
        · exact Or.inr (by simp [h1])

/-- `dictInsert` makes its key present. -/
theorem dictInsert_mem_key (k : Option String) (v : JSHandle) :
    ∀ (m : PropsMap), ∃ v', (k, v') ∈ dictInsert k v m := by
  intro m
  induction m with
  | nil => exact ⟨v, by simp [dictInsert]⟩
  | cons a rest ih =>
    obtain ⟨k0, v0⟩ := a
    by_cases hk : k0 = k
    · subst hk; exact ⟨v, by rw [dictInsert, if_pos rfl]; simp⟩
    · obtain ⟨v', hv'⟩ := ih
      exact ⟨v', by rw [dictInsert, if_neg hk]; simp [hv']⟩

/-- `dictInsert` keeps every already-present key present. -/
theorem dictInsert_key_stable (k : Option String) (v : JSHandle) :
    ∀ (m : PropsMap) (k' : Option String) (v' : JSHandle),
      (k', v') ∈ m → ∃ v'', (k', v'') ∈ dictInsert k v m := by
  intro m
  induction m with
  | nil => intro k' v' hm; cases hm
  | cons a rest ih =>
    intro k' v' hm
    obtain ⟨k0, v0⟩ := a
    rw [List.mem_cons] at hm
    by_cases hk : k0 = k
    · rw [dictInsert, if_pos hk]
      rcases hm with hm | hm
      · cases hm; exact ⟨v, by simp⟩
      · exact ⟨v', by simp [hm]⟩
    · rw [dictInsert, if_neg hk]
      rcases hm with hm | hm
      · cases hm; exact ⟨v', by simp⟩
      · obtain ⟨v'', hv''⟩ := ih k' v' hm
        exact ⟨v'', by simp [hv'']⟩

/-- Every entry of the property fold is an inherited accumulator entry or
comes from an enumerable property, wrapped through the factory. -/
theorem buildPropsAux_mem (factory : Factory) :
    ∀ (props : List PropDesc) (acc : PropsMap) (k : Option String)
      (v : JSHandle), (k, v) ∈ buildPropsAux factory acc props →
      (k, v) ∈ acc ∨ ∃ p, p ∈ props ∧ truthyBool p.enumerable = true ∧
        p.name = k ∧ v = factory p.value := by
  intro props
  induction props with
  | nil => intro acc k v hm; exact Or.inl hm
  | cons p rest ih =>
    intro acc k v hm
    rw [buildPropsAux] at hm
    rcases ih _ k v hm with h1 | h1
    · by_cases he : truthyBool p.enumerable = true
      · rw [if_pos he] at h1
        rcases dictInsert_mem _ _ _ _ _ h1 with ⟨hk, hv⟩ | h2
        · exact Or.inr ⟨p, by simp, he, hk.symm, hv⟩
        · exact Or.inl h2
      · rw [if_neg he] at h1
        exact Or.inl h1
    · obtain ⟨q, hq, h2, h3, h4⟩ := h1
      exact Or.inr ⟨q, by simp [hq], h2, h3, h4⟩

/-- The property fold keeps every accumulator key present. -/
theorem buildPropsAux_key_stable (factory : Factory) :
    ∀ (props : List PropDesc) (acc : PropsMap) (k : Option String)
      (v : JSHandle), (k, v) ∈ acc →
      ∃ v', (k, v') ∈ buildPropsAux factory acc props := by
  intro props
  induction props with
  | nil => intro acc k v hm; exact ⟨v, hm⟩
  | cons p rest ih =>
    intro acc k v hm
    rw [buildPropsAux]
    by_cases he : truthyBool p.enumerable = true
    · rw [if_pos he]
      obtain ⟨v'', hv''⟩ :=
        dictInsert_key_stable p.name (factory p.value) acc k v hm
      exact ih _ k v'' hv''
    · rw [if_neg he]
      exact ih _ k v hm

/-- Every enumerable property of the list ends up with its name present
in the fold's result. -/
theorem buildPropsAux_key_of_enumerable (factory : Factory) :
    ∀ (props : List PropDesc) (acc : PropsMap) (p : PropDesc),
      p ∈ props → truthyBool p.enumerable = true →
      ∃ v, (p.name, v) ∈ buildPropsAux factory acc props := by
  intro props
  induction props with
  | nil => intro acc p hp _; cases hp
  | cons q rest ih =>
    intro acc p hp he
    rw [List.mem_cons] at hp
    rw [buildPropsAux]
    rcases hp with hp | hp
    · subst hp
      rw [if_pos he]
      obtain ⟨v0, hv0⟩ := dictInsert_mem_key p.name (factory p.value) acc
      obtain ⟨v', hv'⟩ := buildPropsAux_key_stable factory rest _ _ _ hv0
      exact ⟨v', hv'⟩
    · exact ih _ p hp he

/-- A trace never counts more releases than its length. -/
theorem countReleases_le_length (t : Trace) :
    countReleases t ≤ t.length :=
  List.length_filter_le _ _

/-- `releaseObject` sends at most one request. -/
theorem releaseObject_trace_len (client : Client) (ro : RemoteObject) :
    (releaseObject client ro).2.length ≤ 1 := by
  rw [releaseObject]
  by_cases ht : truthyStr ro.objectId = true
  · rw [if_pos ht]
    cases hc : client ⟨"Runtime.releaseObject",
        [("objectId", PValue.pstr (ro.objectId.getD ""))]⟩ with
    | ok r => simp [hc]
    | error e => cases e <;> simp [hc]
  · rw [if_neg ht]
    simp

/-- C4: `_convertArgument` applies the first-match encoding table: an
argument equal to positive infinity is encoded exactly as
`{unserializableValue: "Infinity"}`, one equal to negative infinity
exactly as `{unserializableValue: "-Infinity"}` (never as `{value: ...}`);
a `JSHandle` argument passing the context/disposal checks is encoded as
its descriptor's `unserializableValue` if present, else as
`{value: descriptor.value}` if it has no `objectId`, else as
`{objectId: descriptor.objectId}`; any other argument is encoded as
`{value: argument}`. (Presence of the string-valued descriptor fields is
Python truthiness: a present and non-empty string.) -/
theorem c4_convertArgument_encoding_table (ctx : ExecutionContext) :
    (ctx.convertArgument (.prim .pInf) =
      .ok (.unserializableValue "Infinity")) ∧
    (ctx.convertArgument (.prim .pNegInf) =
      .ok (.unserializableValue "-Infinity")) ∧
    (∀ h : JSHandle, h.context = ctx → h.disposed = false →
      (∀ s, h.remoteObject.unserializableValue = some s → s ≠ "" →
        ctx.convertArgument (.handle h) = .ok (.unserializableValue s)) ∧
      (truthyStr h.remoteObject.unserializableValue = false →
        truthyStr h.remoteObject.objectId = false →
        ctx.convertArgument (.handle h) =
          .ok (.value (h.remoteObject.value.getD .pNone))) ∧
      (∀ s, truthyStr h.remoteObject.unserializableValue = false →
        h.remoteObject.objectId = some s → s ≠ "" →
        ctx.convertArgument (.handle h) = .ok (.objectId s))) ∧
    (∀ p : Prim, p ≠ .pInf → p ≠ .pNegInf →
      ctx.convertArgument (.prim p) = .ok (.value p)) := by
  refine ⟨rfl, rfl, ?_, ?_⟩
  · intro h hc hd
    refine ⟨?_, ?_, ?_⟩
    · intro s hu hs
      simp [ExecutionContext.convertArgument, eqInf, eqNegInf, hc, hd,
        truthyStr, hu, hs]
    · intro h1 h2
      simp [ExecutionContext.convertArgument, eqInf, eqNegInf, hc, hd,
        h1, h2]
    · intro s h1 h2 hs
      simp [ExecutionContext.convertArgument, eqInf, eqNegInf, hc, hd,
        h1, h2, truthyStr, hs]
      simpa [truthyStr] using h1
  · intro p h1 h2
    cases p <;> simp_all [ExecutionContext.convertArgument, eqInf, eqNegInf]

/-- Witness for C4: a live same-context handle argument backed by object
id "objA" is encoded as a reference. -/
theorem c4_convertArgument_encoding_table_witness :
    ExecutionContext.convertArgument ctxA (.handle hLive) =
      .ok (.objectId "objA") :=
  ((c4_convertArgument_encoding_table ctxA).2.2.1 hLive rfl rfl).2.2
    "objA" (by decide) rfl (by decide)

/-- C10: `_convertArgument` encodes non-handle NaN and negative-zero
arguments as `{value: argument}` via the fall-through rule — the encoded
result is a `value` wire argument, not an `unserializableValue`
sentinel. -/
theorem c10_nan_negzero_value_encoding (ctx : ExecutionContext) :
    ctx.convertArgument (.prim .pNaN) = .ok (.value .pNaN) ∧
    ctx.convertArgument (.prim .pNegZero) = .ok (.value .pNegZero) :=
  ⟨rfl, rfl⟩

/-- C5: `evaluateHandle` rejects an argument list containing a handle
owned by a different context with the cross-context error, and one
containing a disposed (same-context) handle with the disposed-handle
error — in each case before any RPC request is issued (empty trace). The
first two conjuncts pin the exact error when the bad handle is the first
failing argument; the third shows any bad handle anywhere makes the call
fail with one of the two errors and no RPC. -/
theorem c5_evaluateHandle_bad_handle_args (ctx : ExecutionContext)
    (client : Client) (factory : Factory) (fn : String) :
    (∀ (pre post : List PyVal) (h : JSHandle),
      (∀ v ∈ pre, ∃ w, ctx.convertArgument v = .ok w) →
      h.context ≠ ctx →
      ctx.evaluateHandle client factory fn (pre ++ .handle h :: post) =
        (.error (.elementHandleError crossContextMsg), [])) ∧
    (∀ (pre post : List PyVal) (h : JSHandle),
      (∀ v ∈ pre, ∃ w, ctx.convertArgument v = .ok w) →
      h.context = ctx → h.disposed = true →
      ctx.evaluateHandle client factory fn (pre ++ .handle h :: post) =
        (.error (.elementHandleError disposedMsg), [])) ∧
    (∀ (pre post : List PyVal) (h : JSHandle),
      (h.context ≠ ctx ∨ h.disposed = true) →
      ∃ msg,
        ctx.evaluateHandle client factory fn (pre ++ .handle h :: post) =
          (.error (.elementHandleError msg), []) ∧
        (msg = crossContextMsg ∨ msg = disposedMsg)) := by
  refine ⟨?_, ?_, ?_⟩
  · intro pre post h hpre hc
    exact evaluateHandle_of_convertArgs_error ctx client factory fn _ _
      (convertArgs_prefix_error ctx pre post _ _ hpre
        (convertArgument_cross ctx h hc))
  · intro pre post h hpre hc hd
    exact evaluateHandle_of_convertArgs_error ctx client factory fn _ _
      (convertArgs_prefix_error ctx pre post _ _ hpre
        (convertArgument_disposed ctx h hc hd))
  · intro pre post h hbad
    cases hca : ctx.convertArgs (pre ++ .handle h :: post) with
    | error e =>
      obtain ⟨v, hv, hve⟩ := convertArgs_error_mem ctx _ e hca
      rcases convertArgument_error_cases ctx v e hve with he | he
      · subst he
        exact ⟨crossContextMsg,
          evaluateHandle_of_convertArgs_error _ _ _ _ _ _ hca, Or.inl rfl⟩
      · subst he
        exact ⟨disposedMsg,
          evaluateHandle_of_convertArgs_error _ _ _ _ _ _ hca, Or.inr rfl⟩
    | ok ws =>
      exfalso
      obtain ⟨w, hw⟩ :=
        convertArgs_ok_mem ctx _ ws hca (.handle h) (by simp)
      rcases hbad with hc | hd
      · rw [convertArgument_cross ctx h hc] at hw; cases hw
      · by_cases hc2 : h.context = ctx
        · rw [convertArgument_disposed ctx h hc2 hd] at hw; cases hw
        · rw [convertArgument_cross ctx h hc2] at hw; cases hw

/-- Witness for C5: a cross-context handle and a disposed handle, each as
sole argument, are rejected with the respective error and empty trace. -/
theorem c5_evaluateHandle_bad_handle_args_witness :
    ExecutionContext.evaluateHandle ctxA clientOkEmpty factoryA "fn"
        [.handle hCross] =
      (.error (.elementHandleError crossContextMsg), []) ∧
    ExecutionContext.evaluateHandle ctxA clientOkEmpty factoryA "fn"
        [.handle hDisposed] =
      (.error (.elementHandleError disposedMsg), []) :=
  ⟨(c5_evaluateHandle_bad_handle_args ctxA clientOkEmpty factoryA "fn").1
      [] [] hCross (by simp) (by decide),
   (c5_evaluateHandle_bad_handle_args ctxA clientOkEmpty factoryA
      "fn").2.1 [] [] hDisposed (by simp) rfl rfl⟩

/-- C6: `queryObject` fails with the disposed-prototype error when the
prototype handle is disposed, and otherwise with the primitive-prototype
error when its descriptor has no (truthy) object id; in both failure
cases no RPC request is sent (empty trace). -/
theorem c6_queryObject_guards (ctx : ExecutionContext) (client : Client)
    (factory : Factory) (h : JSHandle) :
    (h.disposed = true →
      ctx.queryObject client factory h =
        (.error (.elementHandleError protoDisposedMsg), [])) ∧
    (h.disposed = false → truthyStr h.remoteObject.objectId = false →
      ctx.queryObject client factory h =
        (.error (.elementHandleError protoPrimitiveMsg), [])) := by
  constructor
  · intro hd
    simp [ExecutionContext.queryObject, hd]
  · intro hd hid
    simp [ExecutionContext.queryObject, hd, hid]

/-- Witness for C6: a disposed prototype handle and a primitive (no
object id) prototype handle, each rejected without RPC. -/
theorem c6_queryObject_guards_witness :
    ExecutionContext.queryObject ctxA clientOkEmpty factoryA hDisposed =
      (.error (.elementHandleError protoDisposedMsg), []) ∧
    ExecutionContext.queryObject ctxA clientOkEmpty factoryA hPrim =
      (.error (.elementHandleError protoPrimitiveMsg), []) :=
  ⟨(c6_queryObject_guards ctxA clientOkEmpty factoryA hDisposed).1 rfl,
   (c6_queryObject_guards ctxA clientOkEmpty factoryA hPrim).2 rfl rfl⟩

/-- C7: `dispose` is idempotent: after the first call the handle is
disposed regardless of how the release call ended (the flag is set
before the request is issued, so it stays true even when the release
fails); the second call succeeds with no request and leaves the handle
unchanged; across both calls at most one release-object request is
issued. -/
theorem c7_dispose_idempotent (h : JSHandle) (client : Client) :
    ((h.dispose client).2).disposed = true ∧
    (h.dispose client).2.dispose client =
      ((.ok (), []), (h.dispose client).2) ∧
    countReleases ((h.dispose client).1.2 ++
      ((h.dispose client).2.dispose client).1.2) ≤ 1 := by
  by_cases hd : h.disposed = true
  · have h1 : h.dispose client = ((.ok (), []), h) := by
      rw [JSHandle.dispose, if_pos hd]
    rw [h1]
    exact ⟨hd, by rw [JSHandle.dispose, if_pos hd], by
      rw [h1]
      simp [countReleases, JSHandle.dispose, hd]⟩
  · have h1 : h.dispose client =
        (releaseObject client h.remoteObject,
         { h with disposed := true }) := by
      rw [JSHandle.dispose, if_neg hd]
    have h2 : ({ h with disposed := true } : JSHandle).dispose client =
        ((.ok (), []), { h with disposed := true }) := by
      rw [JSHandle.dispose, if_pos rfl]
    rw [h1, h2]
    refine ⟨rfl, rfl, ?_⟩
    simp only [List.append_nil]
    calc countReleases (releaseObject client h.remoteObject).2
        ≤ (releaseObject client h.remoteObject).2.length :=
          countReleases_le_length _
      _ ≤ 1 := releaseObject_trace_len client h.remoteObject

/-- C8: `jsonValue` issues no RPC request when the handle's descriptor
has no (truthy) object id, and exactly one call-function-on request with
`returnByValue` true when an object id is present. -/
theorem c8_jsonValue_rpc_discipline (h : JSHandle) (client : Client) :
    (truthyStr h.remoteObject.objectId = false →
      (h.jsonValue client).2 = []) ∧
    (∀ oid, h.remoteObject.objectId = some oid → oid ≠ "" →
      (h.jsonValue client).2 = [callFunctionOnObjectReq oid] ∧
      (callFunctionOnObjectReq oid).method = "Runtime.callFunctionOn" ∧
      ("returnByValue", PValue.pbool true) ∈
        (callFunctionOnObjectReq oid).params) := by
  constructor
  · intro h1
    simp [JSHandle.jsonValue, h1]
  · intro oid h1 h2
    refine ⟨?_, rfl, by simp [callFunctionOnObjectReq]⟩
    cases hc : client (callFunctionOnObjectReq oid) with
    | error e => simp [JSHandle.jsonValue, h1, truthyStr, h2, hc]
    | ok resp =>
      cases hr : resp.result with
      | none => simp [JSHandle.jsonValue, h1, truthyStr, h2, hc, hr]
      | some ro => simp [JSHandle.jsonValue, h1, truthyStr, h2, hc, hr]

/-- Witness for C8: a handle with no object id issues no request; a
handle backed by "objA" issues exactly the one by-value
call-function-on. -/
theorem c8_jsonValue_rpc_discipline_witness :
    (JSHandle.jsonValue hPrim clientOkEmpty).2 = [] ∧
    (JSHandle.jsonValue hLive clientProps).2 =
      [callFunctionOnObjectReq "objA"] :=
  ⟨(c8_jsonValue_rpc_discipline hPrim clientOkEmpty).1 rfl,
   ((c8_jsonValue_rpc_discipline hLive clientProps).2 "objA" rfl
      (by decide)).1⟩

/-- On a successful get-properties response, `getProperties` returns the
filtered wrap of the response's property list and the single request it
sent. -/
theorem getProperties_ok_shape (h : JSHandle) (client : Client)
    (factory : Factory) (resp : Response) (props : List PropDesc)
    (hc : client (getPropertiesReq (h.remoteObject.objectId.getD "")) =
      .ok resp)
    (hp : resp.propList = some props) :
    h.getProperties client factory =
      (.ok (buildProps factory props),
       [getPropertiesReq (h.remoteObject.objectId.getD "")]) := by
  rw [JSHandle.getProperties]
  simp [hc, hp]

/-- C9: the mapping `getProperties` returns contains no entry for any
property the response marks as non-enumerable — every entry of the
mapping originates from a property marked enumerable, whose value
descriptor is wrapped through the owning context's handle factory — and
conversely every enumerable property of the response has its name
present in the mapping. -/
theorem c9_getProperties_enumerable_only (h : JSHandle) (client : Client)
    (factory : Factory) (resp : Response) (props : List PropDesc)
    (m : PropsMap) (t : Trace)
    (hc : client (getPropertiesReq (h.remoteObject.objectId.getD "")) =
      .ok resp)
    (hp : resp.propList = some props)
    (hm : h.getProperties client factory = (.ok m, t)) :
    (∀ k v, (k, v) ∈ m →
      ∃ p, p ∈ props ∧ truthyBool p.enumerable = true ∧ p.name = k ∧
        v = factory p.value) ∧
    (∀ p, p ∈ props → truthyBool p.enumerable = true →
      ∃ v, (p.name, v) ∈ m) := by
  have hshape := getProperties_ok_shape h client factory resp props hc hp
  have hmm : m = buildProps factory props := by
    rw [hshape] at hm
    injection hm with hm1 hm2
    injection hm1 with hm1
    exact hm1.symm
  subst hmm
  constructor
  · intro k v hkv
    rcases buildPropsAux_mem factory props [] k v hkv with h1 | h1
    · cases h1
    · exact h1
  · intro p hp2 he
    exact buildPropsAux_key_of_enumerable factory props [] p hp2 he

/-- Witness for C9: with a two-property response (one enumerable, one
not), the single mapping entry comes from the enumerable property,
factory-wrapped. -/
theorem c9_getProperties_enumerable_only_witness :
    ∃ p, p ∈ twoProps ∧ truthyBool p.enumerable = true ∧
      p.name = some "shown" ∧ hPrim = factoryA p.value :=
  (c9_getProperties_enumerable_only hLive clientTwoProps factoryA
      { propList := some twoProps } twoProps [(some "shown", hPrim)]
      [getPropertiesReq "objA"] (by decide) rfl (by decide)).1
    (some "shown") hPrim (by decide)

/-- C1 (divergence evidence): `evaluate` does not dispose the
intermediate handle when `jsonValue` fails. With a responder whose
call-function-on for the evaluation succeeds (yielding a handle backed
by object id "objA") but whose subsequent `jsonValue` request fails, the
failure propagates and the trace contains no release-object request at
all — even though the intermediate handle had a backing object id to
release. With a fully successful responder the same call does issue
exactly one release request, confirming the dispose step only runs on
the success path. -/
theorem c1_evaluate_no_dispose_on_jsonValue_failure :
    ExecutionContext.evaluate ctxA clientEvalThenFail factoryA
        "() => window.foo" [] =
      (.error (.transport "Protocol error: Connection closed."),
       [evalReqC1, callFunctionOnObjectReq "objA"]) ∧
    countReleases (ExecutionContext.evaluate ctxA clientEvalThenFail
        factoryA "() => window.foo" []).2 = 0 ∧
    truthyStr roWithId.objectId = true ∧
    countReleases (ExecutionContext.evaluate ctxA clientEvalOk factoryA
        "() => window.foo" []).2 = 1 := by
  refine ⟨by decide, by decide, rfl, by decide⟩

/-- C2 (counterexample): on a concrete disposed handle, `getProperties`
and `jsonValue` do not fail with the disposed-handle error — they
proceed, issue their RPC request and return successfully. -/
theorem c2_counterexample_disposed_ops_proceed :
    hDisposed.disposed = true ∧
    JSHandle.getProperties hDisposed clientProps factoryA =
      (.ok [(some "x", hPrim)], [getPropertiesReq "objA"]) ∧
    JSHandle.jsonValue hDisposed clientProps =
      (.ok (.pInt 5), [callFunctionOnObjectReq "objA"]) := by
  refine ⟨rfl, by decide, by decide⟩

/-- C2 (amended): after disposal, `getProperty` does fail with the
disposed-handle error before any RPC (the check happens in
`_convertArgument` when the handle is passed as an argument to
`evaluateHandle`), but `getProperties` and `jsonValue` never consult the
`disposed` flag: their behaviour on a disposed handle is identical to
that on the same handle with the flag cleared. -/
theorem c2_amended_disposed_checks (client : Client) (factory : Factory) :
    (∀ (h : JSHandle) (name : String), h.disposed = true →
      h.getProperty client factory name =
        (.error (.elementHandleError disposedMsg), [])) ∧
    (∀ (ctx : ExecutionContext) (ro : RemoteObject),
      JSHandle.getProperties ⟨ctx, ro, true⟩ client factory =
        JSHandle.getProperties ⟨ctx, ro, false⟩ client factory) ∧
    (∀ (ctx : ExecutionContext) (ro : RemoteObject),
      JSHandle.jsonValue ⟨ctx, ro, true⟩ client =
        JSHandle.jsonValue ⟨ctx, ro, false⟩ client) := by
  refine ⟨?_, fun ctx ro => rfl, fun ctx ro => rfl⟩
  intro h name hd
  have hconv := convertArgument_disposed h.context h rfl hd
  have hargs : h.context.convertArgs [.handle h, .prim (.pStr name)] =
      .error (.elementHandleError disposedMsg) := by
    rw [ExecutionContext.convertArgs, hconv]
  have he := evaluateHandle_of_convertArgs_error h.context client factory
    getPropertyFnSrc [.handle h, .prim (.pStr name)] _ hargs
  simp [JSHandle.getProperty, he]

/-- Witness for the amended C2 at a concrete disposed handle. -/
theorem c2_amended_disposed_checks_witness :
    JSHandle.getProperty hDisposed clientProps factoryA "x" =
      (.error (.elementHandleError disposedMsg), []) :=
  (c2_amended_disposed_checks clientProps factoryA).1 hDisposed "x" rfl

/-- C3 (counterexample): a handle whose descriptor has no `objectId`
does not get an empty mapping by contract — `getProperties` still sends
the RPC request (with empty-string object id) and returns whatever
mapping the response yields, here a non-empty one. -/
theorem c3_counterexample_no_objectId_not_empty :
    hPrim.remoteObject.objectId = none ∧
    JSHandle.getProperties hPrim clientEmptyIdProps factoryA =
      (.ok [(some "x", hLive)], [getPropertiesReq ""]) ∧
    ([(some "x", hLive)] : PropsMap) ≠ [] := by
  refine ⟨rfl, by decide, by decide⟩

/-- C3 (amended): for a handle whose descriptor has no `objectId`,
`getProperties` does not short-circuit to an empty mapping; it issues
exactly one get-properties request carrying the empty string as object
id, and the returned mapping is computed from the response exactly as in
the object-id-present case. -/
theorem c3_amended_rpc_always_sent (h : JSHandle) (client : Client)
    (factory : Factory) (hid : h.remoteObject.objectId = none) :
    (h.getProperties client factory).2 = [getPropertiesReq ""] := by
  cases hc : client (getPropertiesReq "") with
  | error e => simp [JSHandle.getProperties, hid, hc]
  | ok resp =>
    cases hr : resp.propList <;>
      simp [JSHandle.getProperties, hid, hc, hr]

/-- Witness for the amended C3 at a concrete id-less handle. -/
theorem c3_amended_rpc_always_sent_witness :
    (JSHandle.getProperties hPrim clientEmptyIdProps factoryA).2 =
      [getPropertiesReq ""] :=
  c3_amended_rpc_always_sent hPrim clientEmptyIdProps factoryA rfl
